import Mathlib

/-!
# Verification development for mod_ical.c (Apache iCalendar filter module)

Shallow embedding of the transcoding core of `src/mod_ical.c` together with
the behaviour of the libical primitives it calls.  Pure fragments of the C
code are translated into executable Lean functions; the stateful bucket
loop of `ical_out_filter` is translated into explicit state passing with a
fuel parameter (the fuel is always chosen large enough for the inputs the
theorems evaluate, and the inductive invariants proved below hold for every
fuel value).

Conventions:
* C `struct icaltimetype` fields become an `IcalTime` structure; all times
  handled by the module are already in UTC, so the
  `icaltime_convert_to_zone` step inside `icaltime_compare` is the
  identity and is omitted.
* libical helpers that the module calls (`icaltime_compare`,
  `icaltime_is_null_time`, `icalcompiter` iteration,
  `icalcomponent_remove_component`) are translated from libical's
  `icaltime.c` / `icalcomponent.c` / `pvl.c`; each definition's doc
  comment states the original.
* C strings are `List Char` of their bytes before the terminating NUL.
-/

set_option autoImplicit false

/-! ## Times (libical `struct icaltimetype`) -/

/-- libical `struct icaltimetype`: broken-down time plus the `is_date`
flag.  The timezone pointer is omitted: every time handled by
`filter_component` and the serializers is already UTC. -/
structure IcalTime where
  year : Int
  month : Int
  day : Int
  hour : Int
  minute : Int
  second : Int
  is_date : Bool
deriving DecidableEq, Repr

/-- libical `icaltime_null_time()`: the all-zero time. -/
def icaltime_null_time : IcalTime :=
  { year := 0, month := 0, day := 0, hour := 0, minute := 0, second := 0,
    is_date := false }

/-- libical `icaltime_is_null_time`: returns 1 when the sum
`second + minute + hour + day + month + year` is zero. -/
def icaltime_is_null_time (t : IcalTime) : Bool :=
  t.second + t.minute + t.hour + t.day + t.month + t.year == 0

/-- libical `icaltime_compare`: lexicographic comparison of
year, month, day, hour, minute, second, returning 1 / -1 / 0.  Both
operands are UTC here, so the conversion step is the identity. -/
def icaltime_compare (a b : IcalTime) : Int :=
  if a.year > b.year then 1
  else if a.year < b.year then -1
  else if a.month > b.month then 1
  else if a.month < b.month then -1
  else if a.day > b.day then 1
  else if a.day < b.day then -1
  else if a.hour > b.hour then 1
  else if a.hour < b.hour then -1
  else if a.minute > b.minute then 1
  else if a.minute < b.minute then -1
  else if a.second > b.second then 1
  else if a.second < b.second then -1
  else 0

/-! ## Filter and format enumerations (`ap_ical_filter_e`, `ap_ical_format_e`) -/

/-- Enum `ap_ical_filter_e` from mod_ical.c. -/
inductive ap_ical_filter_e
  | AP_ICAL_FILTER_NONE
  | AP_ICAL_FILTER_NEXT
  | AP_ICAL_FILTER_LAST
  | AP_ICAL_FILTER_FUTURE
  | AP_ICAL_FILTER_PAST
  | AP_ICAL_FILTER_UNKNOWN
deriving DecidableEq, Repr

/-- Enum `ap_ical_format_e` from mod_ical.c. -/
inductive ap_ical_format_e
  | AP_ICAL_FORMAT_NONE
  | AP_ICAL_FORMAT_SPACED
  | AP_ICAL_FORMAT_PRETTY
  | AP_ICAL_FORMAT_UNKNOWN
deriving DecidableEq, Repr

/-! ## Direct children of the calendar component and the pvl iterator

`filter_component` iterates the direct children of the top-level component
with a libical `icalcompiter` over the component's pvl list, reading each
child's end time with `icalcomponent_get_dtend`.  A direct child is
modelled by its pvl node identity (`id`, distinct per node) and the
`icaltimetype` that `icalcomponent_get_dtend` returns for it
(`icaltime_null_time` when the child has neither DTEND nor DURATION). -/

/-- One direct child component: pvl node identity plus the value of
libical `icalcomponent_get_dtend` for it. -/
structure IcalSubcomp where
  id : Nat
  dtend : IcalTime
deriving DecidableEq, Repr

/-- pvl: the element immediately after the node with the given identity
(`pvl_next` of that node), or none. -/
def elemAfter : List IcalSubcomp → Nat → Option IcalSubcomp
  | [], _ => Option.none
  | x :: rest, i => if x.id = i then rest.head? else elemAfter rest i

/-- libical `icalcomponent_begin_component(comp, ICAL_ANY_COMPONENT)`:
the returned iterator is positioned AT the first child (every child
matches `ICAL_ANY_COMPONENT`); null iterator when there are no children. -/
def icalcomponent_begin_component (l : List IcalSubcomp) : Option Nat :=
  l.head?.map (fun x => x.id)

/-- libical `icalcompiter_next`: if the iterator is null, stays null and
returns null; otherwise it first ADVANCES to the next node and then
returns the node it now points at (with `ICAL_ANY_COMPONENT` every node
matches).  Note that libical's iteration idiom is deref-then-next; calling
`icalcompiter_next` directly after `icalcomponent_begin_component` skips
the first child. -/
def icalcompiter_next (l : List IcalSubcomp) (iter : Option Nat) :
    Option Nat × Option IcalSubcomp :=
  match iter with
  | Option.none => (Option.none, Option.none)
  | Option.some i =>
    match elemAfter l i with
    | Option.none => (Option.none, Option.none)
    | Option.some x => (Option.some x.id, Option.some x)

/-- libical `icalcomponent_remove_component`: unlinks the (first) node
with the given identity from the child list. -/
def icalcomponent_remove_component : List IcalSubcomp → Nat → List IcalSubcomp
  | [], _ => []
  | x :: rest, i =>
    if x.id = i then rest else x :: icalcomponent_remove_component rest i

/-- The `while ((scomp = icalcompiter_next(&iter)))` loop of
`filter_component` (mod_ical.c lines 1796-1881), translated literally:

* the loop head advances the iterator and takes the returned child as
  `scomp` (exiting when null);
* `next`: if `icaltime_compare(now, end) > 0` the child is removed (the
  iterator is advanced once more before the removal, exactly as in the C
  code); otherwise, if a candidate exists and
  `icaltime_compare(end, candidate_end) < 0`, the candidate is removed
  (again advancing the iterator first) — and in every non-removed case
  `scomp` unconditionally becomes the new candidate;
* `last`: same with both comparisons reversed;
* `future` / `past`: remove-only, no candidate;
* any other filter value: pass through.

`fuel` bounds the number of iterations; the iterator moves strictly
forward, so `comp.length + 1` is always sufficient (used by
`filter_component` below). -/
def filter_component_loop (flt : ap_ical_filter_e) (now : IcalTime) :
    Nat → List IcalSubcomp → Option Nat → Option IcalSubcomp → List IcalSubcomp
  | 0, comp, _, _ => comp
  | fuel + 1, comp, iter, candidate =>
    match icalcompiter_next comp iter with
    | (_, Option.none) => comp
    | (iter1, Option.some scomp) =>
      match flt with
      | ap_ical_filter_e.AP_ICAL_FILTER_NEXT =>
        if icaltime_compare now scomp.dtend > 0 then
          filter_component_loop flt now fuel
            (icalcomponent_remove_component comp scomp.id)
            (icalcompiter_next comp iter1).1 candidate
        else
          match candidate with
          | Option.some cand =>
            if icaltime_compare scomp.dtend cand.dtend < 0 then
              filter_component_loop flt now fuel
                (icalcomponent_remove_component comp cand.id)
                (icalcompiter_next comp iter1).1 (Option.some scomp)
            else
              filter_component_loop flt now fuel comp iter1 (Option.some scomp)
          | Option.none =>
            filter_component_loop flt now fuel comp iter1 (Option.some scomp)
      | ap_ical_filter_e.AP_ICAL_FILTER_LAST =>
        if icaltime_compare now scomp.dtend < 0 then
          filter_component_loop flt now fuel
            (icalcomponent_remove_component comp scomp.id)
            (icalcompiter_next comp iter1).1 candidate
        else
          match candidate with
          | Option.some cand =>
            if icaltime_compare scomp.dtend cand.dtend > 0 then
              filter_component_loop flt now fuel
                (icalcomponent_remove_component comp cand.id)
                (icalcompiter_next comp iter1).1 (Option.some scomp)
            else
              filter_component_loop flt now fuel comp iter1 (Option.some scomp)
          | Option.none =>
            filter_component_loop flt now fuel comp iter1 (Option.some scomp)
      | ap_ical_filter_e.AP_ICAL_FILTER_FUTURE =>
        if icaltime_compare now scomp.dtend > 0 then
          filter_component_loop flt now fuel
            (icalcomponent_remove_component comp scomp.id)
            (icalcompiter_next comp iter1).1 candidate
        else
          filter_component_loop flt now fuel comp iter1 candidate
      | ap_ical_filter_e.AP_ICAL_FILTER_PAST =>
        if icaltime_compare now scomp.dtend < 0 then
          filter_component_loop flt now fuel
            (icalcomponent_remove_component comp scomp.id)
            (icalcompiter_next comp iter1).1 candidate
        else
          filter_component_loop flt now fuel comp iter1 candidate
      | _ =>
        filter_component_loop flt now fuel comp iter1 candidate

/-- Function `filter_component` (mod_ical.c lines 1783-1886): filters the direct
children of `comp` against the reference instant `now`.  In the C code
`now` is `icaltime_current_time_with_zone(utc)`; it is a parameter here. -/
def filter_component (flt : ap_ical_filter_e) (now : IcalTime)
    (comp : List IcalSubcomp) : List IcalSubcomp :=
  filter_component_loop flt now (comp.length + 1) comp
    (icalcomponent_begin_component comp) Option.none

/-! ## Concrete fixtures used by the filter claims -/

/-- VEVENT ending 2023-01-01 (spec section 8, tests 3-5). -/
def ev2023jan : IcalSubcomp :=
  ⟨1, { year := 2023, month := 1, day := 1, hour := 0, minute := 0,
        second := 0, is_date := true }⟩

/-- VEVENT ending 2023-06-01. -/
def ev2023jun : IcalSubcomp :=
  ⟨2, { year := 2023, month := 6, day := 1, hour := 0, minute := 0,
        second := 0, is_date := true }⟩

/-- VEVENT ending 2025-01-01. -/
def ev2025jan : IcalSubcomp :=
  ⟨3, { year := 2025, month := 1, day := 1, hour := 0, minute := 0,
        second := 0, is_date := true }⟩

/-- Reference instant 2024-01-01T00:00:00Z. -/
def now2024 : IcalTime :=
  { year := 2024, month := 1, day := 1, hour := 0, minute := 0,
    second := 0, is_date := false }

/-- A child whose `icalcomponent_get_dtend` is the null time. -/
def evNullEnd : IcalSubcomp := ⟨2, icaltime_null_time⟩

/-- A child ending 2025-01-01, used as the (never examined) first child. -/
def evFirst2025 : IcalSubcomp :=
  ⟨1, { year := 2025, month := 1, day := 1, hour := 0, minute := 0,
        second := 0, is_date := true }⟩

/-! ## Time and duration rendering (icaltime_to_json/xml, icalduration_to_json/xml) -/

/-- C `printf` zero-padded decimal (`%0wd`).  Only used on the
non-negative fields of concrete times in this development. -/
def padNum (w : Nat) (n : Int) : String :=
  if n < 0 then
    let s := toString (-n)
    "-" ++ String.mk (List.replicate (w - 1 - s.length) '0') ++ s
  else
    let s := toString n
    String.mk (List.replicate (w - s.length) '0') ++ s

/-- The `%04d-%02d-%02d` / `%04d-%02d-%02dT%02d:%02d:%02d` formatting
shared by `icaltime_to_json` and `icaltime_to_xml` (mod_ical.c lines
218-264), chosen by the `is_date` flag. -/
def icaltime_format (tt : IcalTime) : String :=
  if tt.is_date then
    padNum 4 tt.year ++ "-" ++ padNum 2 tt.month ++ "-" ++ padNum 2 tt.day
  else
    padNum 4 tt.year ++ "-" ++ padNum 2 tt.month ++ "-" ++ padNum 2 tt.day
      ++ "T" ++ padNum 2 tt.hour ++ ":" ++ padNum 2 tt.minute ++ ":"
      ++ padNum 2 tt.second

/-- Function `icaltime_to_json` (lines 218-239): appends one formatted string to
the JSON array.  The `element` argument is ignored by the C function too —
jCal period fields are positional. -/
def icaltime_to_json (element : String) (tt : IcalTime) : List String :=
  let _ := element
  [icaltime_format tt]

/-- Function `icaltime_to_xml` (lines 241-264): writes one element named `element`
whose text is the formatted time. -/
def icaltime_to_xml (element : String) (tt : IcalTime) :
    List (String × String) :=
  [(element, icaltime_format tt)]

/-- libical `struct icaldurationtype`, abstracted to its
`icaldurationtype_as_ical_string` rendering: the claims checked here
depend only on WHETHER a duration is emitted, never on its text. -/
abbrev IcalDuration := String

/-- Function `icalduration_to_json` (lines 186-199): appends the duration's iCal
string to the JSON array. -/
def icalduration_to_json (element : String) (d : IcalDuration) :
    List String :=
  let _ := element
  [(d : String)]

/-- Function `icalduration_to_xml` (lines 201-216): one element named `element`
holding the duration's iCal string. -/
def icalduration_to_xml (element : String) (d : IcalDuration) :
    List (String × String) :=
  [(element, (d : String))]

/-! ## Period and DateTimePeriod values (claim C2) -/

/-- libical `struct icalperiodtype`.  Lean reserves `end`, hence `end_`. -/
structure icalperiodtype where
  start : IcalTime
  end_ : IcalTime
  duration : IcalDuration
deriving DecidableEq, Repr

/-- libical `struct icaldatetimeperiodtype`. -/
structure icaldatetimeperiodtype where
  time : IcalTime
  period : icalperiodtype
deriving DecidableEq, Repr

/-- The `ICAL_PERIOD_VALUE` branch of `icalvalue_to_json` (lines 852-873):
the inner jCal value array.  Translated literally: when `period.end` is
non-null the code calls `icaltime_to_json(f, "end", period.start, jvalue)`
— passing `period.start`, not `period.end` — else it emits the duration. -/
def icalvalue_period_to_json (p : icalperiodtype) : List String :=
  icaltime_to_json "start" p.start ++
    (if !(icaltime_is_null_time p.end_) then
      icaltime_to_json "end" p.start
    else
      icalduration_to_json "duration" p.duration)

/-- The `ICAL_PERIOD_VALUE` branch of `icalvalue_to_xml` (lines
1140-1156) as the list of (element name, text) children.  As in the JSON
branch, the C code writes the `end` element from `period.start`. -/
def icalvalue_period_to_xml (p : icalperiodtype) : List (String × String) :=
  icaltime_to_xml "start" p.start ++
    (if !(icaltime_is_null_time p.end_) then
      icaltime_to_xml "end" p.start
    else
      icalduration_to_xml "duration" p.duration)

/-- The `ICAL_DATETIMEPERIOD_VALUE` branch of `icalvalue_to_json` (lines
874-903): `time` alone when non-null, otherwise the period decomposition
(again writing the `end` slot from `period.start`). -/
def icalvalue_datetimeperiod_to_json (d : icaldatetimeperiodtype) :
    List String :=
  if !(icaltime_is_null_time d.time) then
    icaltime_to_json "time" d.time
  else
    icaltime_to_json "start" d.period.start ++
      (if !(icaltime_is_null_time d.period.end_) then
        icaltime_to_json "end" d.period.start
      else
        icalduration_to_json "duration" d.period.duration)

/-- The `ICAL_DATETIMEPERIOD_VALUE` branch of `icalvalue_to_xml` (lines
1157-1181). -/
def icalvalue_datetimeperiod_to_xml (d : icaldatetimeperiodtype) :
    List (String × String) :=
  if !(icaltime_is_null_time d.time) then
    icaltime_to_xml "time" d.time
  else
    icaltime_to_xml "start" d.period.start ++
      (if !(icaltime_is_null_time d.period.end_) then
        icaltime_to_xml "end" d.period.start
      else
        icalduration_to_xml "duration" d.period.duration)

/-- Concrete period: start 2020-01-01T00:00:00Z, end 2020-01-02T00:00:00Z. -/
def p2020 : icalperiodtype :=
  { start := { year := 2020, month := 1, day := 1, hour := 0, minute := 0,
               second := 0, is_date := false },
    end_ := { year := 2020, month := 1, day := 2, hour := 0, minute := 0,
              second := 0, is_date := false },
    duration := ("PT0S" : String) }

/-- Concrete DateTimePeriod taking the period branch (null `time`). -/
def dtp2020 : icaldatetimeperiodtype :=
  { time := icaltime_null_time, period := p2020 }

/-- Concrete period with a null end and a duration, taking the duration
branch of the serializers. -/
def pNullEnd2020 : icalperiodtype :=
  { start := { year := 2020, month := 1, day := 1, hour := 0, minute := 0,
               second := 0, is_date := false },
    end_ := icaltime_null_time,
    duration := ("PT1H" : String) }

/-! ## Multi-valued properties (claim C6) -/

/-- Property kinds relevant to the multi-valued dispatch of
`icalproperty_to_json` / `icalproperty_to_xml` (lines 1378-1397 and
1461-1481). -/
inductive icalproperty_kind
  | ICAL_CATEGORIES_PROPERTY
  | ICAL_RESOURCES_PROPERTY
  | ICAL_FREEBUSY_PROPERTY
  | ICAL_EXDATE_PROPERTY
  | ICAL_RDATE_PROPERTY
  | ICAL_SUMMARY_PROPERTY
  | ICAL_DTSTART_PROPERTY
  | ICAL_X_PROPERTY
deriving DecidableEq, Repr

/-- The five-case `switch (kind)` that routes a property's value through
`icalvalue_multi_to_json` / `icalvalue_multi_to_xml` instead of the
single-value path. -/
def property_value_is_multi (k : icalproperty_kind) : Bool :=
  match k with
  | icalproperty_kind.ICAL_CATEGORIES_PROPERTY => true
  | icalproperty_kind.ICAL_RESOURCES_PROPERTY => true
  | icalproperty_kind.ICAL_FREEBUSY_PROPERTY => true
  | icalproperty_kind.ICAL_EXDATE_PROPERTY => true
  | icalproperty_kind.ICAL_RDATE_PROPERTY => true
  | _ => false

/-- The comma-splitting `slider` loop shared by `icalvalue_multi_to_json`
(lines 675-708) and `icalvalue_multi_to_xml` (lines 710-763): each
iteration emits the text up to the next `,` (or to the end of the string)
as one token.  An empty string yields the single empty token, and a
trailing comma yields a final empty token, exactly as the C loop does. -/
def icalvalue_multi_tokens : List Char → List (List Char)
  | [] => [[]]
  | c :: rest =>
    if c = ',' then
      [] :: icalvalue_multi_tokens rest
    else
      match icalvalue_multi_tokens rest with
      | [] => [[c]]
      | t :: ts => (c :: t) :: ts

/-- Function `icalvalue_multi_to_json`: one JSON array entry per token. -/
def icalvalue_multi_to_json (s : List Char) : List (List Char) :=
  icalvalue_multi_tokens s

/-- Function `icalvalue_multi_to_xml`: one sibling element (named by the value
kind) per token. -/
def icalvalue_multi_to_xml (element : List Char) (s : List Char) :
    List (List Char × List Char) :=
  (icalvalue_multi_tokens s).map (fun t => (element, t))

/-- Spec-side description of "a comma-separated list of the given
tokens", used to state claim C6. -/
def commaJoin : List (List Char) → List Char
  | [] => []
  | [t] => t
  | t :: ts => t ++ ',' :: commaJoin ts

/-! ## Recurrence rules (claim C8) -/

/-- libical `icalrecurrencetype_frequency`. -/
inductive icalrecurrencetype_frequency
  | ICAL_SECONDLY_RECURRENCE
  | ICAL_MINUTELY_RECURRENCE
  | ICAL_HOURLY_RECURRENCE
  | ICAL_DAILY_RECURRENCE
  | ICAL_WEEKLY_RECURRENCE
  | ICAL_MONTHLY_RECURRENCE
  | ICAL_YEARLY_RECURRENCE
  | ICAL_NO_RECURRENCE
deriving DecidableEq, Repr

/-- libical `icalrecurrencetype_weekday`. -/
inductive icalrecurrencetype_weekday
  | ICAL_NO_WEEKDAY
  | ICAL_SUNDAY_WEEKDAY
  | ICAL_MONDAY_WEEKDAY
  | ICAL_TUESDAY_WEEKDAY
  | ICAL_WEDNESDAY_WEEKDAY
  | ICAL_THURSDAY_WEEKDAY
  | ICAL_FRIDAY_WEEKDAY
  | ICAL_SATURDAY_WEEKDAY
deriving DecidableEq, Repr

/-- The fields emitted by `icalrecurrencetype_to_json` /
`icalrecurrencetype_to_xml`, as an enumeration of the JSON keys /
XML element names the two functions write. -/
inductive recur_field
  | field_until
  | field_count
  | field_interval
  | field_bysecond
  | field_byminute
  | field_byhour
  | field_byday
  | field_bymonthday
  | field_byyearday
  | field_byweekno
  | field_bymonth
  | field_bysetpos
  | field_wkst
deriving DecidableEq, Repr

/-- libical `struct icalrecurrencetype`, restricted to the fields that
decide WHICH keys/elements the two serializers emit.  Each sentinel-
terminated `short` array (`by_second[ICAL_BY_SECOND_SIZE]`, ...) is
modelled as the list of its entries before the first
`ICAL_RECURRENCE_ARRAY_MAX`, so `array[0] != ICAL_RECURRENCE_ARRAY_MAX`
becomes "the list is non-empty". -/
structure icalrecurrencetype where
  freq : icalrecurrencetype_frequency
  until_ : IcalTime
  count : Int
  interval : Int
  by_second : List Int
  by_minute : List Int
  by_hour : List Int
  by_day : List Int
  by_month_day : List Int
  by_year_day : List Int
  by_week_no : List Int
  by_month : List Int
  by_set_pos : List Int
  week_start : icalrecurrencetype_weekday
deriving DecidableEq, Repr

/-- The ordered list of JSON object keys written by
`icalrecurrencetype_to_json` (mod_ical.c lines 434-551): nothing at all
when `freq == ICAL_NO_RECURRENCE`; `until` when `until.year != 0`;
`count` when non-zero; `interval` when it differs from 1; one key per
non-empty BY-list (`icalrecurrence_by_to_json` tests
`array[0] != ICAL_RECURRENCE_ARRAY_MAX`); and `wkst` only when
`week_start` is neither `ICAL_MONDAY_WEEKDAY` nor `ICAL_NO_WEEKDAY`
("Monday is the default, so no need to write that out"). -/
def icalrecurrencetype_to_json_keys (r : icalrecurrencetype) :
    List recur_field :=
  if r.freq ≠ icalrecurrencetype_frequency.ICAL_NO_RECURRENCE then
    (if r.until_.year ≠ 0 then [recur_field.field_until] else []) ++
    (if r.count ≠ 0 then [recur_field.field_count] else []) ++
    (if r.interval ≠ 1 then [recur_field.field_interval] else []) ++
    (if r.by_second ≠ [] then [recur_field.field_bysecond] else []) ++
    (if r.by_minute ≠ [] then [recur_field.field_byminute] else []) ++
    (if r.by_hour ≠ [] then [recur_field.field_byhour] else []) ++
    (if r.by_day ≠ [] then [recur_field.field_byday] else []) ++
    (if r.by_month_day ≠ [] then [recur_field.field_bymonthday] else []) ++
    (if r.by_year_day ≠ [] then [recur_field.field_byyearday] else []) ++
    (if r.by_week_no ≠ [] then [recur_field.field_byweekno] else []) ++
    (if r.by_month ≠ [] then [recur_field.field_bymonth] else []) ++
    (if r.by_set_pos ≠ [] then [recur_field.field_bysetpos] else []) ++
    (if r.week_start ≠ icalrecurrencetype_weekday.ICAL_MONDAY_WEEKDAY ∧
        r.week_start ≠ icalrecurrencetype_weekday.ICAL_NO_WEEKDAY then
      [recur_field.field_wkst]
    else [])
  else []

/-- The ordered list of XML element names written by
`icalrecurrencetype_to_xml` (lines 553-673): identical gating, except
that the BY writers (`icalrecurrence_by_to_xml`, ...) emit one element
per array entry instead of one grouped key. -/
def icalrecurrencetype_to_xml_elems (r : icalrecurrencetype) :
    List recur_field :=
  if r.freq ≠ icalrecurrencetype_frequency.ICAL_NO_RECURRENCE then
    (if r.until_.year ≠ 0 then [recur_field.field_until] else []) ++
    (if r.count ≠ 0 then [recur_field.field_count] else []) ++
    (if r.interval ≠ 1 then [recur_field.field_interval] else []) ++
    r.by_second.map (fun _ => recur_field.field_bysecond) ++
    r.by_minute.map (fun _ => recur_field.field_byminute) ++
    r.by_hour.map (fun _ => recur_field.field_byhour) ++
    r.by_day.map (fun _ => recur_field.field_byday) ++
    r.by_month_day.map (fun _ => recur_field.field_bymonthday) ++
    r.by_year_day.map (fun _ => recur_field.field_byyearday) ++
    r.by_week_no.map (fun _ => recur_field.field_byweekno) ++
    r.by_month.map (fun _ => recur_field.field_bymonth) ++
    r.by_set_pos.map (fun _ => recur_field.field_bysetpos) ++
    (if r.week_start ≠ icalrecurrencetype_weekday.ICAL_MONDAY_WEEKDAY ∧
        r.week_start ≠ icalrecurrencetype_weekday.ICAL_NO_WEEKDAY then
      [recur_field.field_wkst]
    else [])
  else []

/-- A Recur with no frequency but week start Tuesday (counterexample for
claim C8). -/
def recurNoFreqTuesday : icalrecurrencetype :=
  { freq := icalrecurrencetype_frequency.ICAL_NO_RECURRENCE,
    until_ := icaltime_null_time, count := 0, interval := 1,
    by_second := [], by_minute := [], by_hour := [], by_day := [],
    by_month_day := [], by_year_day := [], by_week_no := [],
    by_month := [], by_set_pos := [],
    week_start := icalrecurrencetype_weekday.ICAL_TUESDAY_WEEKDAY }

/-- A weekly Recur with interval 1 and week start Tuesday (witness input
for the amended claim C8). -/
def recurWeeklyTuesday : icalrecurrencetype :=
  { freq := icalrecurrencetype_frequency.ICAL_WEEKLY_RECURRENCE,
    until_ := icaltime_null_time, count := 0, interval := 1,
    by_second := [], by_minute := [], by_hour := [], by_day := [],
    by_month_day := [], by_year_day := [], by_week_no := [],
    by_month := [], by_set_pos := [],
    week_start := icalrecurrencetype_weekday.ICAL_TUESDAY_WEEKDAY }

/-! ## The line-unfolding bucket loop of `ical_out_filter` (claim C5)

The data loop of `ical_out_filter` (mod_ical.c lines 2136-2262) walks the
brigade bucket by bucket, carrying `seen_eol` / `eat_crlf` and the pending
logical-line brigade `ctx->tmp` across calls.  A brigade is a list of data
buckets (each a byte list); `ctx->tmp` only ever gets flattened by
`add_line`, so it is carried here as a flat byte list.  The sequence of
logical lines the machine produces is the sequence of buffers handed to
`icalparser_add_line` by `add_line` (lines 1888-1915); those buffers are
recorded in `lines`. -/

/-- The loop state carried in `ical_ctx` across buckets and filter calls,
plus the record of buffers handed to `icalparser_add_line` so far. -/
structure ical_ctx_state where
  seen_eol : Bool
  eat_crlf : Bool
  tmp : List Char
  lines : List (List Char)
deriving DecidableEq, Repr

/-- Position of the first CR or LF in a bucket: the smaller of the two
`memchr` results at lines 2238-2242. -/
def findEol : List Char → Option Nat
  | [] => Option.none
  | c :: rest =>
    if c = '\r' ∨ c = '\n' then Option.some 0
    else (findEol rest).map (fun n => n + 1)

/-- The `memchr`/split step (lines 2237-2258) on the current bucket `e`:

* no CR/LF: the whole bucket is appended to `ctx->tmp`;
* first CR/LF at position 0 (`pos == data`): the split is skipped and the
  WHOLE bucket — line break included — is appended to `ctx->tmp`
  (this is the C code exactly: `apr_bucket_split` runs only when
  `pos != data`, but the bucket is unconditionally moved to `ctx->tmp`);
* first CR/LF at position p+1: the bucket is split there, the prefix goes
  to `ctx->tmp` and the remainder stays at the head of the brigade.

In the CR/LF cases `eat_crlf` and `seen_eol` are set.
Returns the new state and the remaining brigade. -/
def ical_out_scan (st : ical_ctx_state) (e : List Char)
    (rest : List (List Char)) : ical_ctx_state × List (List Char) :=
  match findEol e with
  | Option.none => ({ st with tmp := st.tmp ++ e }, rest)
  | Option.some 0 =>
    let st1 := { st with tmp := st.tmp ++ e, eat_crlf := true, seen_eol := true }
    (st1, rest)
  | Option.some (p + 1) =>
    let st1 := { st with tmp := st.tmp ++ e.take (p + 1), eat_crlf := true, seen_eol := true }
    (st1, e.drop (p + 1) :: rest)

/-- The `while (!APR_BRIGADE_EMPTY(bb))` data loop (lines 2136-2262),
one constructor case per branch of the C body:

* empty bucket: deleted (lines 2193-2196);
* `eat_crlf` with a CR/LF first byte: that byte is split off and deleted,
  `eat_crlf` stays set — so a whole run of CR/LF bytes is eaten
  (lines 2198-2203); otherwise `eat_crlf` is cleared and the iteration
  continues (line 2204);
* `seen_eol`: cleared; a space/tab first byte is a fold marker and is
  dropped (lines 2210-2216); otherwise, when `ctx->tmp` is non-empty, the
  buffered logical line is handed to `add_line` and the loop continues
  with the same bucket (lines 2218-2233);
* otherwise the CR/LF scan `ical_out_scan`.

`fuel` bounds the iterations; every iteration consumes a byte, a bucket,
or the `seen_eol` flag, so the fuel chosen by `ical_run` is sufficient. -/
def ical_out_loop : Nat → ical_ctx_state → List (List Char) → ical_ctx_state
  | 0, st, _ => st
  | _ + 1, st, [] => st
  | fuel + 1, st, [] :: rest => ical_out_loop fuel st rest
  | fuel + 1, st, (c :: etail) :: rest =>
    if st.eat_crlf ∧ (c = '\r' ∨ c = '\n') then
      ical_out_loop fuel st (etail :: rest)
    else
      let st1 := { st with eat_crlf := false }
      if st1.seen_eol then
        if c = ' ' ∨ c = '\t' then
          ical_out_loop fuel { st1 with seen_eol := false } (etail :: rest)
        else if st1.tmp ≠ [] then
          let st2 := { st1 with seen_eol := false, tmp := [], lines := st1.lines ++ [st1.tmp] }
          ical_out_loop fuel st2 ((c :: etail) :: rest)
        else
          let step := ical_out_scan { st1 with seen_eol := false }
            (c :: etail) rest
          ical_out_loop fuel step.1 step.2
      else
        let step := ical_out_scan st1 (c :: etail) rest
        ical_out_loop fuel step.1 step.2

/-- The EOS branch (lines 2143-2167): `add_line` is called once more on
the (possibly empty) buffered `ctx->tmp`.  The machine's output is the
full sequence of buffers handed to `icalparser_add_line`. -/
def ical_out_eos (st : ical_ctx_state) : List (List Char) :=
  st.lines ++ [st.tmp]

/-- Run the unfolding machine from the initial (zeroed `ical_ctx`) state
over a list of data buckets followed by EOS, and return the sequence of
logical-line buffers handed to `icalparser_add_line`.  Whether the host
delivers the buckets in one brigade or across several filter calls is
immaterial: the state is carried in `ical_ctx` either way.  The fuel
`2 * (total bytes + number of buckets) + 2` dominates the loop's
iteration count (each iteration consumes a byte, a bucket, or the
`seen_eol` flag, and the flag case cannot repeat). -/
def ical_run (chunks : List (List Char)) : List (List Char) :=
  let fuel := 2 * (chunks.foldl (fun a c => a + c.length) 0
    + chunks.length) + 2
  ical_out_eos (ical_out_loop fuel
    { seen_eol := false, eat_crlf := false, tmp := [], lines := [] } chunks)

/-! ## Query-string mode parsing (claim C10) -/

/-- C `strncmp(s1, s2, n) == 0` on NUL-terminated byte strings, with the
list holding the bytes before the terminator: the comparison walks at
most `n` byte pairs and stops early at a NUL or a mismatch. -/
def strncmp_is_zero : List Char → List Char → Nat → Bool
  | _, _, 0 => true
  | [], [], _ + 1 => true
  | [], c2 :: _, _ + 1 => if c2 = '\x00' then true else false
  | c1 :: _, [], _ + 1 => if c1 = '\x00' then true else false
  | c1 :: t1, c2 :: t2, n + 1 =>
    if c1 = '\x00' ∧ c2 = '\x00' then true
    else if c1 = c2 then strncmp_is_zero t1 t2 n
    else false

/-- Boolean "the first list is an initial run of the second", used as the
spec-side reading of the bounded `strncmp` calls in claim C10. -/
def leadsB : List Char → List Char → Bool
  | [], _ => true
  | _ :: _, [] => false
  | a :: as1, b :: bs1 => if a = b then leadsB as1 bs1 else false

/-- No byte of the list is NUL (always true of bytes taken from a query
string, which is NUL-terminated). -/
def noNul (s : List Char) : Prop := ∀ c ∈ s, c ≠ '\x00'

instance noNul_decidable (s : List Char) : Decidable (noNul s) :=
  List.decidableBAll _ s

/-- Function `parse_filter` (mod_ical.c lines 1745-1765): five bounded `strncmp`
tests in the fixed order none, next, last, future, past. -/
def parse_filter (arg : List Char) (len : Nat) : ap_ical_filter_e :=
  if strncmp_is_zero arg ("none".toList) len then
    ap_ical_filter_e.AP_ICAL_FILTER_NONE
  else if strncmp_is_zero arg ("next".toList) len then
    ap_ical_filter_e.AP_ICAL_FILTER_NEXT
  else if strncmp_is_zero arg ("last".toList) len then
    ap_ical_filter_e.AP_ICAL_FILTER_LAST
  else if strncmp_is_zero arg ("future".toList) len then
    ap_ical_filter_e.AP_ICAL_FILTER_FUTURE
  else if strncmp_is_zero arg ("past".toList) len then
    ap_ical_filter_e.AP_ICAL_FILTER_PAST
  else
    ap_ical_filter_e.AP_ICAL_FILTER_UNKNOWN

/-- Function `parse_format` (lines 1767-1781): order none, pretty, spaced. -/
def parse_format (arg : List Char) (len : Nat) : ap_ical_format_e :=
  if strncmp_is_zero arg ("none".toList) len then
    ap_ical_format_e.AP_ICAL_FORMAT_NONE
  else if strncmp_is_zero arg ("pretty".toList) len then
    ap_ical_format_e.AP_ICAL_FORMAT_PRETTY
  else if strncmp_is_zero arg ("spaced".toList) len then
    ap_ical_format_e.AP_ICAL_FORMAT_SPACED
  else
    ap_ical_format_e.AP_ICAL_FORMAT_UNKNOWN

/-- The `filter=` handling of `ical_query` (lines 1954-1985) for one
key/value pair: `ctx->filter` starts at the configured value and is
overwritten only when `parse_filter(val, vlen)` is not UNKNOWN (`vlen`
is the value's byte length). -/
def ical_query_filter_update (conf : ap_ical_filter_e) (val : List Char) :
    ap_ical_filter_e :=
  let fl := parse_filter val val.length
  if fl ≠ ap_ical_filter_e.AP_ICAL_FILTER_UNKNOWN then fl else conf

/-- The `format=` handling of `ical_query` (lines 1987-1994). -/
def ical_query_format_update (conf : ap_ical_format_e) (val : List Char) :
    ap_ical_format_e :=
  let fm := parse_format val val.length
  if fm ≠ ap_ical_format_e.AP_ICAL_FORMAT_UNKNOWN then fm else conf

/-! ## Output selection and the pass-through / write-error paths (claim C9) -/

/-- Enum `ap_ical_output_e` from mod_ical.c. -/
inductive ap_ical_output_e
  | AP_ICAL_OUTPUT_NEGOTIATED
  | AP_ICAL_OUTPUT_ICAL
  | AP_ICAL_OUTPUT_XCAL
  | AP_ICAL_OUTPUT_JCAL
deriving DecidableEq, Repr

/-- APR status values returned by the modelled paths. -/
inductive apr_status_e
  | APR_SUCCESS
  | APR_EGENERAL
  | APR_ENOMEM
  | APR_ENOTIMPL
deriving DecidableEq, Repr

/-- The serializer selected by `ical_write`. -/
inductive ser_format_e
  | SER_ICAL
  | SER_XCAL
  | SER_JCAL
deriving DecidableEq, Repr

/-- How one pass of the output filter ends, as far as claim C9 is
concerned: the filter removes itself and passes the input brigade through
unmodified; or it emits the transcoded document; or it returns an error
status (in which case nothing is passed downstream). -/
inductive stage_outcome_e
  | PASSTHROUGH_UNMODIFIED
  | TRANSCODED (fmt : ser_format_e)
  | ERROR_RETURN (s : apr_status_e)
deriving DecidableEq, Repr

/-- ASCII lower-casing, as used by `strcasecmp`. -/
def ascii_tolower (c : Char) : Char :=
  if 'A' ≤ c ∧ c ≤ 'Z' then Char.ofNat (c.toNat + 32) else c

/-- C `strcasecmp(a, b) == 0`: case-insensitive byte equality. -/
def strcasecmp_is_zero (a b : List Char) : Bool :=
  a.map ascii_tolower == b.map ascii_tolower

/-- The first-call sanity check of `ical_out_filter` (lines 2079-2093):
when the output format is still NEGOTIATED and the response content type
is absent or not `text/calendar` (case-insensitively), the filter removes
itself and passes the brigade through unmodified. -/
def ical_out_content_check (output : ap_ical_output_e)
    (ct : Option (List Char)) : Bool :=
  match output, ct with
  | ap_ical_output_e.AP_ICAL_OUTPUT_NEGOTIATED, Option.none => true
  | ap_ical_output_e.AP_ICAL_OUTPUT_NEGOTIATED, Option.some s =>
    !(strcasecmp_is_zero s ("text/calendar".toList))
  | _, _ => false

/-- The Accept negotiation of `ical_out_filter` (lines 2102-2124): an
absent or unrecognized Accept header falls back to iCal text. -/
def ical_negotiate (accept : Option (List Char)) : ap_ical_output_e :=
  match accept with
  | Option.none => ap_ical_output_e.AP_ICAL_OUTPUT_ICAL
  | Option.some s =>
    if s = ("text/calendar".toList) then
      ap_ical_output_e.AP_ICAL_OUTPUT_ICAL
    else if s = ("application/calendar+xml".toList) then
      ap_ical_output_e.AP_ICAL_OUTPUT_XCAL
    else if s = ("application/calendar+json".toList) then
      ap_ical_output_e.AP_ICAL_OUTPUT_JCAL
    else
      ap_ical_output_e.AP_ICAL_OUTPUT_ICAL

/-- Function `ical_write` (lines 2003-2028): dispatch on the output format; the
default case — a format with no encoder — returns APR_ENOTIMPL. -/
def ical_write (output : ap_ical_output_e) :
    Except apr_status_e ser_format_e :=
  match output with
  | ap_ical_output_e.AP_ICAL_OUTPUT_ICAL =>
    Except.ok ser_format_e.SER_ICAL
  | ap_ical_output_e.AP_ICAL_OUTPUT_XCAL =>
    Except.ok ser_format_e.SER_XCAL
  | ap_ical_output_e.AP_ICAL_OUTPUT_JCAL =>
    Except.ok ser_format_e.SER_JCAL
  | _ => Except.error apr_status_e.APR_ENOTIMPL

/-- The EOS branch of `ical_out_filter` (lines 2143-2167) after the
component is built: when `ical_write` fails the filter returns the error
status immediately — the brigade is neither transcoded nor passed
through; on success the document is flushed downstream. -/
def ical_out_eos_outcome (output : ap_ical_output_e) : stage_outcome_e :=
  match ical_write output with
  | Except.error s => stage_outcome_e.ERROR_RETURN s
  | Except.ok fmt => stage_outcome_e.TRANSCODED fmt

/-- One whole pass of `ical_out_filter` at the outcome level: first-call
content check (pass-through when it fails), then negotiation of a still-
NEGOTIATED output, then the write at EOS. -/
def ical_out_outcome (output : ap_ical_output_e) (ct : Option (List Char))
    (accept : Option (List Char)) : stage_outcome_e :=
  if ical_out_content_check output ct then
    stage_outcome_e.PASSTHROUGH_UNMODIFIED
  else
    let output1 :=
      if output = ap_ical_output_e.AP_ICAL_OUTPUT_NEGOTIATED then
        ical_negotiate accept
      else output
    ical_out_eos_outcome output1

/-! ## Helper lemmas about the filter loop -/

/-- An element returned by `elemAfter` belongs to the list. -/
lemma elemAfter_mem :
    ∀ {l : List IcalSubcomp} {i : Nat} {x : IcalSubcomp},
      elemAfter l i = Option.some x → x ∈ l := by
  intro l
  induction l with
  | nil => intro i x h; cases h
  | cons y rest ih =>
    intro i x h
    by_cases hy : y.id = i
    · simp only [elemAfter, hy, if_pos] at h
      cases rest with
      | nil => cases h
      | cons z more =>
        simp only [List.head?] at h
        cases h
        exact List.mem_cons_of_mem _ (List.mem_cons_self _ _)
    · simp only [elemAfter, hy, if_neg, if_false] at h
      exact List.mem_cons_of_mem _ (ih h)

/-- A child returned by `icalcompiter_next` belongs to the child list. -/
lemma icalcompiter_next_mem {l : List IcalSubcomp} {iter : Option Nat}
    {j : Option Nat} {x : IcalSubcomp}
    (h : icalcompiter_next l iter = (j, Option.some x)) : x ∈ l := by
  cases iter with
  | none => simp [icalcompiter_next] at h
  | some i =>
    simp only [icalcompiter_next] at h
    rcases he : elemAfter l i with _ | y
    · rw [he] at h; cases h
    · rw [he] at h
      cases h
      exact elemAfter_mem he

/-- Removal by a different node identity preserves membership. -/
lemma remove_component_mem :
    ∀ {l : List IcalSubcomp} {i : Nat} {c : IcalSubcomp},
      c ∈ l → c.id ≠ i → c ∈ icalcomponent_remove_component l i := by
  intro l
  induction l with
  | nil => intro i c h; cases h
  | cons y rest ih =>
    intro i c hc hne
    by_cases hy : y.id = i
    · simp only [icalcomponent_remove_component, hy, if_pos]
      rcases List.mem_cons.mp hc with rfl | hmem
      · exact absurd hy hne
      · exact hmem
    · simp only [icalcomponent_remove_component, hy, if_neg, if_false]
      rcases List.mem_cons.mp hc with rfl | hmem
      · exact List.mem_cons_self _ _
      · exact List.mem_cons_of_mem _ (ih hmem hne)

/-- Removal yields a sublist of the original child list. -/
lemma remove_component_sublist :
    ∀ (l : List IcalSubcomp) (i : Nat),
      (icalcomponent_remove_component l i).Sublist l := by
  intro l
  induction l with
  | nil => intro i; simp [icalcomponent_remove_component]
  | cons y rest ih =>
    intro i
    by_cases hy : y.id = i
    · simp only [icalcomponent_remove_component, hy, if_pos]
      exact List.sublist_cons_self _ _
    · simp only [icalcomponent_remove_component, hy, if_neg, if_false]
      exact List.Sublist.cons₂ _ (ih i)

/-- With pairwise-distinct node identities, two members sharing an
identity are the same node. -/
lemma nodup_id_inj :
    ∀ {l : List IcalSubcomp},
      (l.map (fun s => s.id)).Nodup →
      ∀ {a b : IcalSubcomp}, a ∈ l → b ∈ l → a.id = b.id → a = b := by
  intro l
  induction l with
  | nil => intro _ a b ha; cases ha
  | cons y rest ih =>
    intro hn a b ha hb hid
    have hn2 := hn
    rw [List.map_cons, List.nodup_cons] at hn2
    rcases List.mem_cons.mp ha with rfl | ha2
    · rcases List.mem_cons.mp hb with rfl | hb2
      · rfl
      · exact absurd (hid ▸ List.mem_map_of_mem (fun s => s.id) hb2)
          hn2.1
    · rcases List.mem_cons.mp hb with rfl | hb2
      · exact absurd (hid ▸ List.mem_map_of_mem (fun s => s.id) ha2)
          hn2.1
      · exact ih hn2.2 ha2 hb2 hid

/-- A reference instant with positive year compares strictly after the
null time. -/
lemma icaltime_compare_pos_null {t : IcalTime} (h : 0 < t.year) :
    icaltime_compare t icaltime_null_time = 1 := by
  simp [icaltime_compare, icaltime_null_time, h]

/-- The `none` (and any unhandled) filter value leaves the child list
untouched, for every fuel, iterator and candidate. -/
lemma filter_loop_none_eq (now : IcalTime) :
    ∀ (fuel : Nat) (comp : List IcalSubcomp) (iter : Option Nat)
      (cand : Option IcalSubcomp),
      filter_component_loop ap_ical_filter_e.AP_ICAL_FILTER_NONE now fuel
        comp iter cand = comp := by
  intro fuel
  induction fuel with
  | zero => intro comp iter cand; rfl
  | succ n ih =>
    intro comp iter cand
    rw [filter_component_loop]
    rcases hnext : icalcompiter_next comp iter with ⟨iter1, o⟩
    cases o with
    | none => rfl
    | some scomp => exact ih comp iter1 cand

/-- In `past` mode the loop never removes a child whose end is the null
time (for a reference instant with positive year): the only removals are
of children with `icaltime_compare now end < 0`, and the null end
compares as 1. -/
lemma filter_loop_past_keeps (now : IcalTime) (h0 : 0 < now.year) :
    ∀ (fuel : Nat) (comp : List IcalSubcomp) (iter : Option Nat)
      (cand : Option IcalSubcomp) (c : IcalSubcomp),
      (comp.map (fun s => s.id)).Nodup → c ∈ comp →
      c.dtend = icaltime_null_time →
      c ∈ filter_component_loop ap_ical_filter_e.AP_ICAL_FILTER_PAST now
        fuel comp iter cand := by
  intro fuel
  induction fuel with
  | zero => intro comp iter cand c _ hc _; exact hc
  | succ n ih =>
    intro comp iter cand c hn hc he
    rw [filter_component_loop]
    rcases hnext : icalcompiter_next comp iter with ⟨iter1, o⟩
    cases o with
    | none => exact hc
    | some scomp =>
      by_cases hrem : icaltime_compare now scomp.dtend < 0
      · simp only [hrem, if_pos]
        have hs : scomp ∈ comp := icalcompiter_next_mem hnext
        have hcs : c ≠ scomp := by
          intro heq
          rw [← heq, he, icaltime_compare_pos_null h0] at hrem
          exact absurd hrem (by norm_num)
        have hid : c.id ≠ scomp.id := fun hidEq =>
          hcs (nodup_id_inj hn hc hs hidEq)
        have hmem2 : c ∈ icalcomponent_remove_component comp scomp.id :=
          remove_component_mem hc hid
        have hn2 : ((icalcomponent_remove_component comp scomp.id).map
            (fun s => s.id)).Nodup :=
          List.Nodup.sublist
            (List.Sublist.map _ (remove_component_sublist comp scomp.id)) hn
        exact ih _ _ _ _ hn2 hmem2 he
      · simp only [hrem, if_neg, if_false]
        exact ih _ _ _ _ hn hc he

/-! ## Claim theorems: the component filter (C1, C3, C4, C7) -/

/-- Claim C1: the spec says `next` drops every child ending strictly
before now and keeps exactly the earliest-ending remainder, so on VEVENTs
ending 2023-01-01 / 2023-06-01 / 2025-01-01 with now = 2024-01-01 only
the 2025-01-01 event should remain.  The code disagrees: the loop's
`icalcompiter_next` head skips the first child entirely, and the extra
`icalcompiter_next` before each removal skips the child after the removed
one, so the filter returns the 2023-01-01 AND 2025-01-01 events. -/
theorem next_filter_spec_example_fails :
    filter_component ap_ical_filter_e.AP_ICAL_FILTER_NEXT now2024
        [ev2023jan, ev2023jun, ev2025jan] = [ev2023jan, ev2025jan] ∧
    icaltime_compare now2024 ev2023jan.dtend > 0 ∧
    ev2023jan ∈ filter_component ap_ical_filter_e.AP_ICAL_FILTER_NEXT
        now2024 [ev2023jan, ev2023jun, ev2025jan] ∧
    filter_component ap_ical_filter_e.AP_ICAL_FILTER_NEXT now2024
        [ev2023jan, ev2023jun, ev2025jan] ≠ [ev2025jan] := by
  refine ⟨by decide, by decide, by decide, by decide⟩

/-- Claim C3: the spec says `last` keeps exactly the 2023-06-01 event on
those three VEVENTs; the code keeps the 2023-01-01 event too, because the
first child is never examined by the iterator loop. -/
theorem last_filter_spec_example_fails :
    filter_component ap_ical_filter_e.AP_ICAL_FILTER_LAST now2024
        [ev2023jan, ev2023jun, ev2025jan] = [ev2023jan, ev2023jun] ∧
    filter_component ap_ical_filter_e.AP_ICAL_FILTER_LAST now2024
        [ev2023jan, ev2023jun, ev2025jan] ≠ [ev2023jun] := by
  refine ⟨by decide, by decide⟩

/-- Claim C7: the spec says `future` removes exactly the children ending
strictly before now.  On the three VEVENTs with now = 2024-01-01 that
would leave only the 2025-01-01 event, but the code keeps the skipped
first child (ending 2023-01-01) as well; `past` happens to match the spec
on this input. -/
theorem future_filter_spec_example_fails :
    filter_component ap_ical_filter_e.AP_ICAL_FILTER_FUTURE now2024
        [ev2023jan, ev2023jun, ev2025jan] = [ev2023jan, ev2025jan] ∧
    icaltime_compare now2024 ev2023jan.dtend > 0 ∧
    ev2023jan ∈ filter_component ap_ical_filter_e.AP_ICAL_FILTER_FUTURE
        now2024 [ev2023jan, ev2023jun, ev2025jan] ∧
    filter_component ap_ical_filter_e.AP_ICAL_FILTER_FUTURE now2024
        [ev2023jan, ev2023jun, ev2025jan] ≠ [ev2025jan] ∧
    filter_component ap_ical_filter_e.AP_ICAL_FILTER_PAST now2024
        [ev2023jan, ev2023jun, ev2025jan] = [ev2023jan, ev2023jun] := by
  refine ⟨by decide, by decide, by decide, by decide, by decide⟩

/-- Claim C4 counterexample: in `next` mode a child whose end is the null
time is removed when the loop examines it — `icaltime_compare(now, null)`
is 1, so the null end counts as "in the past" — refuting "for every
filter mode the component filter never removes a child lacking an end
time". -/
theorem null_end_removed_in_next_mode :
    filter_component ap_ical_filter_e.AP_ICAL_FILTER_NEXT now2024
        [evFirst2025, evNullEnd] = [evFirst2025] ∧
    evNullEnd ∉ filter_component ap_ical_filter_e.AP_ICAL_FILTER_NEXT
        now2024 [evFirst2025, evNullEnd] := by
  refine ⟨by decide, by decide⟩

/-- Claim C4, amended: a null end compares as extremely old, so `next`
and `future` REMOVE an examined null-end child; only in `past` mode (and
the identity `none` mode) is a child with a null end never removed —
provided the reference instant has a positive year and the pvl node
identities are distinct, for any iterator start and candidate, i.e. for
the whole `filter_component` run. -/
theorem null_end_kept_in_past_and_none_modes
    (flt : ap_ical_filter_e) (now : IcalTime) (comp : List IcalSubcomp)
    (c : IcalSubcomp)
    (hflt : flt = ap_ical_filter_e.AP_ICAL_FILTER_PAST ∨
      flt = ap_ical_filter_e.AP_ICAL_FILTER_NONE)
    (hnow : 0 < now.year)
    (hids : (comp.map (fun s => s.id)).Nodup)
    (hmem : c ∈ comp) (hend : c.dtend = icaltime_null_time) :
    c ∈ filter_component flt now comp := by
  rcases hflt with rfl | rfl
  · exact filter_loop_past_keeps now hnow _ comp _ _ c hids hmem hend
  · rw [filter_component, filter_loop_none_eq]
    exact hmem

/-- Witness for the amended claim C4: in `past` mode with
now = 2024-01-01 the null-end child of `[evFirst2025, evNullEnd]`
survives the filter. -/
theorem null_end_kept_witness :
    evNullEnd ∈ filter_component ap_ical_filter_e.AP_ICAL_FILTER_PAST
      now2024 [evFirst2025, evNullEnd] :=
  null_end_kept_in_past_and_none_modes
    ap_ical_filter_e.AP_ICAL_FILTER_PAST now2024 [evFirst2025, evNullEnd]
    evNullEnd (Or.inl rfl) (by decide) (by decide) (by decide) (by decide)

/-! ## Claim theorems: Period / DateTimePeriod serialization (C2) -/

/-- Claim C2: the spec says that when a Period's end is present the
serializers render the field labelled `end` with the period's END
instant.  The code instead passes `period.start` to the writer in the
`end` branch of both `icalvalue_to_json` and `icalvalue_to_xml` (and in
the period branch of DateTimePeriod): for a period 2020-01-01T00:00:00Z →
2020-01-02T00:00:00Z the emitted `end` field repeats the start instant.
The structural half of the claim (duration emitted exactly when end is
null) does hold in the code. -/
theorem period_end_field_carries_start :
    icalvalue_period_to_xml p2020 =
      [("start", "2020-01-01T00:00:00"), ("end", "2020-01-01T00:00:00")] ∧
    icaltime_format p2020.end_ = "2020-01-02T00:00:00" ∧
    ("end", icaltime_format p2020.end_) ∉ icalvalue_period_to_xml p2020 ∧
    icalvalue_period_to_json p2020 =
      ["2020-01-01T00:00:00", "2020-01-01T00:00:00"] ∧
    icalvalue_datetimeperiod_to_xml dtp2020 =
      [("start", "2020-01-01T00:00:00"), ("end", "2020-01-01T00:00:00")] ∧
    icalvalue_datetimeperiod_to_json dtp2020 =
      ["2020-01-01T00:00:00", "2020-01-01T00:00:00"] ∧
    (icaltime_is_null_time p2020.end_ = false ∧
      icaltime_is_null_time pNullEnd2020.end_ = true ∧
      icalvalue_period_to_xml pNullEnd2020 =
        [("start", "2020-01-01T00:00:00"), ("duration", "PT1H")]) := by
  refine ⟨by decide, by decide, by decide, by decide, by decide, by decide,
    by decide, by decide, by decide⟩

/-! ## Claim theorems: recurrence default suppression (C8) -/

/-- Membership in `if c then [x] else []` unfolds to `c ∧ a = x`. -/
lemma mem_ite_singleton {α : Type} [DecidableEq α] {a x : α} {c : Prop}
    [Decidable c] :
    (a ∈ (if c then [x] else ([] : List α))) ↔ (c ∧ a = x) := by
  split <;> simp_all

/-- Claim C8 counterexample: a Recur whose frequency is
`ICAL_NO_RECURRENCE` but whose week start is Tuesday emits NO fields at
all — both serializers are wrapped in `if (recur->freq !=
ICAL_NO_RECURRENCE)` — refuting "when the week start is any other day
(e.g. Tuesday), the wkst field is always emitted". -/
theorem wkst_omitted_when_no_recurrence :
    recurNoFreqTuesday.week_start =
      icalrecurrencetype_weekday.ICAL_TUESDAY_WEEKDAY ∧
    icalrecurrencetype_to_json_keys recurNoFreqTuesday = [] ∧
    icalrecurrencetype_to_xml_elems recurNoFreqTuesday = [] ∧
    recur_field.field_wkst ∉
      icalrecurrencetype_to_json_keys recurNoFreqTuesday ∧
    recur_field.field_wkst ∉
      icalrecurrencetype_to_xml_elems recurNoFreqTuesday := by
  refine ⟨by decide, by decide, by decide, by decide, by decide⟩

/-- Claim C8, amended: both serializers omit `interval` when it is 1 and
omit `wkst` when the week start is Monday or unset; and — provided the
frequency is set (not `ICAL_NO_RECURRENCE`, in which case nothing at all
is emitted) — a week start of Tuesday always produces a `wkst` field. -/
theorem recur_default_suppression_amended (r : icalrecurrencetype) :
    (r.interval = 1 →
      recur_field.field_interval ∉ icalrecurrencetype_to_json_keys r ∧
      recur_field.field_interval ∉ icalrecurrencetype_to_xml_elems r) ∧
    ((r.week_start = icalrecurrencetype_weekday.ICAL_MONDAY_WEEKDAY ∨
        r.week_start = icalrecurrencetype_weekday.ICAL_NO_WEEKDAY) →
      recur_field.field_wkst ∉ icalrecurrencetype_to_json_keys r ∧
      recur_field.field_wkst ∉ icalrecurrencetype_to_xml_elems r) ∧
    (r.freq ≠ icalrecurrencetype_frequency.ICAL_NO_RECURRENCE →
      r.week_start = icalrecurrencetype_weekday.ICAL_TUESDAY_WEEKDAY →
      recur_field.field_wkst ∈ icalrecurrencetype_to_json_keys r ∧
      recur_field.field_wkst ∈ icalrecurrencetype_to_xml_elems r) := by
  refine ⟨?_, ?_, ?_⟩
  · intro h
    by_cases hf : r.freq = icalrecurrencetype_frequency.ICAL_NO_RECURRENCE
    · constructor <;>
        simp [icalrecurrencetype_to_json_keys,
          icalrecurrencetype_to_xml_elems, hf]
    · constructor <;>
        simp [icalrecurrencetype_to_json_keys,
          icalrecurrencetype_to_xml_elems, hf, h, mem_ite_singleton,
          List.mem_append, List.mem_map]
  · intro h
    by_cases hf : r.freq = icalrecurrencetype_frequency.ICAL_NO_RECURRENCE
    · constructor <;>
        simp [icalrecurrencetype_to_json_keys,
          icalrecurrencetype_to_xml_elems, hf]
    · have hw : ¬(r.week_start ≠
          icalrecurrencetype_weekday.ICAL_MONDAY_WEEKDAY ∧
          r.week_start ≠ icalrecurrencetype_weekday.ICAL_NO_WEEKDAY) := by
        rcases h with h | h <;> simp [h]
      constructor <;>
        simp [icalrecurrencetype_to_json_keys,
          icalrecurrencetype_to_xml_elems, hf, hw, mem_ite_singleton,
          List.mem_append, List.mem_map]
  · intro hf hw
    constructor <;>
      simp [icalrecurrencetype_to_json_keys,
        icalrecurrencetype_to_xml_elems, hf, hw, mem_ite_singleton,
        List.mem_append, List.mem_map]

/-- Witness for the amended claim C8: the weekly Tuesday Recur with
interval 1 omits `interval` and emits `wkst` in both formats. -/
theorem recur_default_suppression_witness :
    (recur_field.field_interval ∉
        icalrecurrencetype_to_json_keys recurWeeklyTuesday ∧
      recur_field.field_interval ∉
        icalrecurrencetype_to_xml_elems recurWeeklyTuesday) ∧
    (recur_field.field_wkst ∈
        icalrecurrencetype_to_json_keys recurWeeklyTuesday ∧
      recur_field.field_wkst ∈
        icalrecurrencetype_to_xml_elems recurWeeklyTuesday) :=
  ⟨(recur_default_suppression_amended recurWeeklyTuesday).1 (by decide),
    (recur_default_suppression_amended recurWeeklyTuesday).2.2 (by decide)
      (by decide)⟩

/-! ## Claim theorems: pass-through and the no-encoder path (C9) -/

/-- Claim C9 counterexample: when a write is attempted for an output
format with no encoder (the `default` case of `ical_write`, i.e. a still-
NEGOTIATED output), the filter returns APR_ENOTIMPL from the EOS branch —
the input is NOT passed through unmodified, refuting the half of the
claim that says both precondition violations end in pass-through. -/
theorem no_encoder_write_errors :
    ical_write ap_ical_output_e.AP_ICAL_OUTPUT_NEGOTIATED =
      Except.error apr_status_e.APR_ENOTIMPL ∧
    ical_out_eos_outcome ap_ical_output_e.AP_ICAL_OUTPUT_NEGOTIATED =
      stage_outcome_e.ERROR_RETURN apr_status_e.APR_ENOTIMPL ∧
    ical_out_eos_outcome ap_ical_output_e.AP_ICAL_OUTPUT_NEGOTIATED ≠
      stage_outcome_e.PASSTHROUGH_UNMODIFIED := by
  refine ⟨rfl, by decide, by decide⟩

/-- Claim C9, amended: when negotiation was requested and the response
content type is absent or not `text/calendar`, the filter removes itself
and passes the input through unmodified; but when a write runs for an
output format with no encoder, `ical_write` returns APR_ENOTIMPL and the
filter returns that error — nothing is emitted and the input is not
passed through.  (Through the normal flow the error is unreachable: the
Accept negotiation always resolves to a format with an encoder.) -/
theorem passthrough_and_write_error_amended :
    (∀ (ct : Option (List Char)) (accept : Option (List Char)),
      (ct = Option.none ∨
        (∀ s, ct = Option.some s →
          strcasecmp_is_zero s ("text/calendar".toList) = false)) →
      ical_out_outcome ap_ical_output_e.AP_ICAL_OUTPUT_NEGOTIATED ct
        accept = stage_outcome_e.PASSTHROUGH_UNMODIFIED) ∧
    (ical_out_eos_outcome ap_ical_output_e.AP_ICAL_OUTPUT_NEGOTIATED =
        stage_outcome_e.ERROR_RETURN apr_status_e.APR_ENOTIMPL ∧
      ∀ s : apr_status_e, stage_outcome_e.ERROR_RETURN s ≠
        stage_outcome_e.PASSTHROUGH_UNMODIFIED) ∧
    (∀ accept : Option (List Char), ∃ fmt : ser_format_e,
      ical_out_eos_outcome (ical_negotiate accept) =
        stage_outcome_e.TRANSCODED fmt) := by
  refine ⟨?_, ⟨rfl, ?_⟩, ?_⟩
  · intro ct accept h
    rcases ct with _ | s
    · simp [ical_out_outcome, ical_out_content_check]
    · rcases h with h | h
      · cases h
      · have hs := h s rfl
        simp only [ical_out_outcome, ical_out_content_check, hs]
        rfl
  · intro s
    intro h
    cases h
  · intro accept
    rcases accept with _ | s
    · exact ⟨ser_format_e.SER_ICAL, rfl⟩
    · by_cases h1 : s = ("text/calendar".toList)
      · subst h1; exact ⟨ser_format_e.SER_ICAL, rfl⟩
      · by_cases h2 : s = ("application/calendar+xml".toList)
        · subst h2; exact ⟨ser_format_e.SER_XCAL, rfl⟩
        · by_cases h3 : s = ("application/calendar+json".toList)
          · subst h3; exact ⟨ser_format_e.SER_JCAL, rfl⟩
          · refine ⟨ser_format_e.SER_ICAL, ?_⟩
            simp only [ical_negotiate, if_neg h1, if_neg h2, if_neg h3]
            rfl

/-- Witness for the amended claim C9: a `text/html` response content type
under negotiation is passed through unmodified, and the no-encoder write
returns APR_ENOTIMPL. -/
theorem passthrough_and_write_error_witness :
    ical_out_outcome ap_ical_output_e.AP_ICAL_OUTPUT_NEGOTIATED
        (Option.some ("text/html".toList)) Option.none =
      stage_outcome_e.PASSTHROUGH_UNMODIFIED ∧
    ical_out_eos_outcome ap_ical_output_e.AP_ICAL_OUTPUT_NEGOTIATED =
      stage_outcome_e.ERROR_RETURN apr_status_e.APR_ENOTIMPL :=
  ⟨passthrough_and_write_error_amended.1
      (Option.some ("text/html".toList)) Option.none
      (Or.inr (fun s hs => by cases hs; decide)),
    passthrough_and_write_error_amended.2.1.1⟩

/-! ## Claim theorems: line unfolding vs. chunk boundaries (C5) -/

/-- Claim C5: the spec says the unfolder yields the same sequence of
logical lines for every chunking of the same byte sequence.  The code
does not: when the first CR/LF of a bucket sits at its first byte, the
`pos != data` guard skips the split and the WHOLE bucket — line break
included — is moved into the logical-line buffer.  For the two-byte
input LF `A`, a single chunk produces the one buffered line `"\nA"`,
while the chunking `["\n", "A"]` produces the two lines `"\n"` and
`"A"`. -/
theorem unfold_chunking_differs :
    List.flatten [['\n', 'A']] = List.flatten [['\n'], ['A']] ∧
    ical_run [['\n', 'A']] = [['\n', 'A']] ∧
    ical_run [['\n'], ['A']] = [['\n'], ['A']] ∧
    ical_run [['\n', 'A']] ≠ ical_run [['\n'], ['A']] := by
  refine ⟨by decide, by decide, by decide, by decide⟩

/-! ## Claim theorems: multi-valued property split (C6) -/

/-- The token list produced by the comma-splitting loop is never empty. -/
lemma multi_tokens_ne_nil :
    ∀ s : List Char, icalvalue_multi_tokens s ≠ [] := by
  intro s
  induction s with
  | nil => simp [icalvalue_multi_tokens]
  | cons c rest ih =>
    by_cases hc : c = ','
    · simp [icalvalue_multi_tokens, hc]
    · simp only [icalvalue_multi_tokens, hc, if_neg, if_false]
      rcases h : icalvalue_multi_tokens rest with _ | ⟨t, ts⟩ <;> simp

/-- A comma-free string is one single token. -/
lemma multi_tokens_no_comma :
    ∀ {t : List Char}, ',' ∉ t → icalvalue_multi_tokens t = [t] := by
  intro t
  induction t with
  | nil => intro _; rfl
  | cons c rest ih =>
    intro h
    have hc : ¬c = ',' := by
      intro e
      exact h (by simp [e])
    have hr : ',' ∉ rest := fun m => h (List.mem_cons_of_mem _ m)
    simp [icalvalue_multi_tokens, hc, ih hr]

/-- Splitting distributes over the first comma after a comma-free token. -/
lemma multi_tokens_append :
    ∀ {t s : List Char}, ',' ∉ t →
      icalvalue_multi_tokens (t ++ ',' :: s) =
        t :: icalvalue_multi_tokens s := by
  intro t
  induction t with
  | nil => intro s _; simp [icalvalue_multi_tokens]
  | cons c rest ih =>
    intro s h
    have hc : ¬c = ',' := by
      intro e
      exact h (by simp [e])
    have hr : ',' ∉ rest := fun m => h (List.mem_cons_of_mem _ m)
    simp only [List.cons_append, icalvalue_multi_tokens, hc, if_neg,
      if_false, List.append_eq]
    rw [ih hr]

/-- The splitter recovers any non-empty list of comma-free tokens from
their comma-joined text. -/
lemma multi_tokens_commaJoin :
    ∀ (ts : List (List Char)), ts ≠ [] → (∀ t ∈ ts, ',' ∉ t) →
      icalvalue_multi_tokens (commaJoin ts) = ts := by
  intro ts
  induction ts with
  | nil => intro h; exact absurd rfl h
  | cons t rest ih =>
    intro _ hcf
    cases rest with
    | nil =>
      simp only [commaJoin]
      exact multi_tokens_no_comma (hcf t (List.mem_cons_self _ _))
    | cons t2 more =>
      have hj : commaJoin (t :: t2 :: more) =
          t ++ ',' :: commaJoin (t2 :: more) := rfl
      rw [hj, multi_tokens_append (hcf t (List.mem_cons_self _ _))]
      have hcf2 : ∀ x ∈ t2 :: more, ',' ∉ x := fun x hx =>
        hcf x (List.mem_cons_of_mem _ hx)
      rw [ih (by simp) hcf2]

/-- Claim C6: for a property of one of the five multi-valued kinds
(CATEGORIES, RESOURCES, FREEBUSY, EXDATE, RDATE) whose raw text is the
comma-separated join of n comma-free tokens, `icalvalue_multi_to_json`
emits exactly those n tokens as independent array entries in order, and
`icalvalue_multi_to_xml` emits n sibling elements carrying them in
order. -/
theorem multi_valued_split_correct (k : icalproperty_kind)
    (_hk : property_value_is_multi k = true)
    (ts : List (List Char)) (hne : ts ≠ [])
    (hcf : ∀ t ∈ ts, ',' ∉ t) (element : List Char) :
    icalvalue_multi_to_json (commaJoin ts) = ts ∧
    (icalvalue_multi_to_json (commaJoin ts)).length = ts.length ∧
    icalvalue_multi_to_xml element (commaJoin ts) =
      ts.map (fun t => (element, t)) ∧
    (icalvalue_multi_to_xml element (commaJoin ts)).length = ts.length := by
  have h := multi_tokens_commaJoin ts hne hcf
  refine ⟨h, by rw [icalvalue_multi_to_json, h], ?_, ?_⟩
  · rw [icalvalue_multi_to_xml, h]
  · rw [icalvalue_multi_to_xml, h, List.length_map]

/-- Witness for claim C6: `CATEGORIES:A,B,C` yields the three entries
`A`, `B`, `C` in JSON and three `<categories>`-style siblings in XML. -/
theorem multi_valued_split_witness :
    icalvalue_multi_to_json ("A,B,C".toList) = [['A'], ['B'], ['C']] ∧
    icalvalue_multi_to_xml ("text".toList) ("A,B,C".toList) =
      [("text".toList, ['A']), ("text".toList, ['B']),
        ("text".toList, ['C'])] := by
  have h := multi_valued_split_correct
    icalproperty_kind.ICAL_CATEGORIES_PROPERTY (by decide)
    [['A'], ['B'], ['C']] (by decide) (by decide) ("text".toList)
  exact ⟨h.1, h.2.2.1⟩

/-! ## Claim theorems: query-string mode parsing (C10) -/

/-- For NUL-free byte strings, `strncmp(arg, name, strlen-of-arg) == 0`
holds exactly when `arg` is an initial run of `name`. -/
lemma strncmp_is_zero_eq_leadsB :
    ∀ (a b : List Char), noNul a → noNul b →
      strncmp_is_zero a b a.length = leadsB a b := by
  intro a
  induction a with
  | nil =>
    intro b _ _
    cases b <;> rfl
  | cons c t ih =>
    intro b hna hnb
    have hc0 : c ≠ '\x00' := hna c (List.mem_cons_self _ _)
    have hnt : noNul t := fun x hx => hna x (List.mem_cons_of_mem _ hx)
    cases b with
    | nil =>
      simp [strncmp_is_zero, leadsB, List.length_cons, hc0]
    | cons c2 t2 =>
      have hnt2 : noNul t2 := fun x hx => hnb x (List.mem_cons_of_mem _ hx)
      have hc20 : c2 ≠ '\x00' := hnb c2 (List.mem_cons_self _ _)
      by_cases hcc : c = c2
      · simp [strncmp_is_zero, leadsB, List.length_cons, hc0, hc20, hcc,
          ih t2 hnt hnt2]
      · simp [strncmp_is_zero, leadsB, List.length_cons, hc0, hc20, hcc]

/-- Claim C10: `parse_filter` / `parse_format` are bounded-prefix
matching over the supplied value's length in the fixed orders
none, next, last, future, past and none, pretty, spaced; a value that is
an initial run of a mode name selects the first name it leads
(`leadsB`); the empty value selects NONE and therefore overrides the
configured default inside `ical_query`; and a value matching no name
parses as UNKNOWN, leaving the configured mode unchanged. -/
theorem query_mode_bounded_matching :
    (∀ arg : List Char, noNul arg →
      parse_filter arg arg.length =
        (if leadsB arg ("none".toList) then
          ap_ical_filter_e.AP_ICAL_FILTER_NONE
        else if leadsB arg ("next".toList) then
          ap_ical_filter_e.AP_ICAL_FILTER_NEXT
        else if leadsB arg ("last".toList) then
          ap_ical_filter_e.AP_ICAL_FILTER_LAST
        else if leadsB arg ("future".toList) then
          ap_ical_filter_e.AP_ICAL_FILTER_FUTURE
        else if leadsB arg ("past".toList) then
          ap_ical_filter_e.AP_ICAL_FILTER_PAST
        else ap_ical_filter_e.AP_ICAL_FILTER_UNKNOWN)) ∧
    (∀ arg : List Char, noNul arg →
      parse_format arg arg.length =
        (if leadsB arg ("none".toList) then
          ap_ical_format_e.AP_ICAL_FORMAT_NONE
        else if leadsB arg ("pretty".toList) then
          ap_ical_format_e.AP_ICAL_FORMAT_PRETTY
        else if leadsB arg ("spaced".toList) then
          ap_ical_format_e.AP_ICAL_FORMAT_SPACED
        else ap_ical_format_e.AP_ICAL_FORMAT_UNKNOWN)) ∧
    (parse_filter [] 0 = ap_ical_filter_e.AP_ICAL_FILTER_NONE ∧
      parse_format [] 0 = ap_ical_format_e.AP_ICAL_FORMAT_NONE ∧
      (∀ conf, ical_query_filter_update conf [] =
        ap_ical_filter_e.AP_ICAL_FILTER_NONE) ∧
      (∀ conf, ical_query_format_update conf [] =
        ap_ical_format_e.AP_ICAL_FORMAT_NONE)) ∧
    (∀ (conf : ap_ical_filter_e) (arg : List Char),
      parse_filter arg arg.length =
        ap_ical_filter_e.AP_ICAL_FILTER_UNKNOWN →
      ical_query_filter_update conf arg = conf) ∧
    (∀ (conf : ap_ical_format_e) (arg : List Char),
      parse_format arg arg.length =
        ap_ical_format_e.AP_ICAL_FORMAT_UNKNOWN →
      ical_query_format_update conf arg = conf) := by
  refine ⟨?_, ?_, ⟨by decide, by decide, ?_, ?_⟩, ?_, ?_⟩
  · intro arg hn
    have h1 := strncmp_is_zero_eq_leadsB arg ("none".toList) hn (by decide)
    have h2 := strncmp_is_zero_eq_leadsB arg ("next".toList) hn (by decide)
    have h3 := strncmp_is_zero_eq_leadsB arg ("last".toList) hn (by decide)
    have h4 := strncmp_is_zero_eq_leadsB arg ("future".toList) hn
      (by decide)
    have h5 := strncmp_is_zero_eq_leadsB arg ("past".toList) hn (by decide)
    simp only [parse_filter, h1, h2, h3, h4, h5]
  · intro arg hn
    have h1 := strncmp_is_zero_eq_leadsB arg ("none".toList) hn (by decide)
    have h2 := strncmp_is_zero_eq_leadsB arg ("pretty".toList) hn
      (by decide)
    have h3 := strncmp_is_zero_eq_leadsB arg ("spaced".toList) hn
      (by decide)
    simp only [parse_format, h1, h2, h3]
  · intro conf
    rfl
  · intro conf
    rfl
  · intro conf arg h
    simp [ical_query_filter_update, h]
  · intro conf arg h
    simp [ical_query_format_update, h]

/-- Witness for claim C10: `n` leads both `none` and `next` and selects
NONE (the first match); `fu` selects FUTURE; the empty value overrides a
configured PAST back to NONE; and `xyz` leaves a configured LAST
untouched. -/
theorem query_mode_bounded_matching_witness :
    parse_filter ("n".toList) ("n".toList).length =
      ap_ical_filter_e.AP_ICAL_FILTER_NONE ∧
    parse_filter ("fu".toList) ("fu".toList).length =
      ap_ical_filter_e.AP_ICAL_FILTER_FUTURE ∧
    ical_query_filter_update ap_ical_filter_e.AP_ICAL_FILTER_PAST [] =
      ap_ical_filter_e.AP_ICAL_FILTER_NONE ∧
    ical_query_filter_update ap_ical_filter_e.AP_ICAL_FILTER_LAST
      ("xyz".toList) = ap_ical_filter_e.AP_ICAL_FILTER_LAST ∧
    parse_format ("p".toList) ("p".toList).length =
      ap_ical_format_e.AP_ICAL_FORMAT_PRETTY := by
  refine ⟨?_, ?_, ?_, ?_, ?_⟩
  · rw [query_mode_bounded_matching.1 ("n".toList) (by decide)]
    decide
  · rw [query_mode_bounded_matching.1 ("fu".toList) (by decide)]
    decide
  · exact query_mode_bounded_matching.2.2.1.2.2.1
      ap_ical_filter_e.AP_ICAL_FILTER_PAST
  · exact query_mode_bounded_matching.2.2.2.1
      ap_ical_filter_e.AP_ICAL_FILTER_LAST ("xyz".toList) (by decide)
  · rw [query_mode_bounded_matching.2.1 ("p".toList) (by decide)]
    decide
